import Mathlib

/-!
Verification of the task-dispatch and scheduling subsystem of the jlrs async
runtime (`src/jlrs/src/runtime/async_rt/mod.rs`).

The scheduler loop `AsyncJulia::run_inner` is embedded as a labelled
transition system on `LoopState`: each label corresponds to one branch of the
loop body (admission of a message kind, the timeout branch, the no-free-slot
branch, completion of a spawned task, the shutdown drain, worker joins, and
foreign-runtime teardown).  The submission API (`task`, `blocking_task`,
`post_blocking_task`, `include`, `error_color`), the persistent handle
(`PersistentHandle::call` / `try_call`), and the queue-resize delegations are
embedded as pure functions.  Parts of the repository that are referenced but
whose sources are not available (the bounded channel behind `ChannelSender`
and the queue behind `Sender::resize_*`) are modelled from the specification,
with doc comments marking them as such.
-/

namespace JlrsAsync

/-- The payload-erased message kinds of `MessageInner` in
`runtime/async_rt/mod.rs`.  Task payloads (boxed envelopes) are abstracted to
an opaque numeric task id; the include message keeps its path and the
error-color message its flag, as in the source. -/
inductive MessageInner where
  | task (tid : Nat)
  | blockingTask (tid : Nat)
  | postBlockingTask (tid : Nat)
  | includeTask (path : String) (tid : Nat)
  | errorColor (enable : Bool) (tid : Nat)
deriving DecidableEq, Repr

/-- Phases of the scheduler loop `run_inner`: the main receive loop, the
post-break drain over the `N` slots, the worker-join loop, and the state after
`jl_atexit_hook` has run and the function returns. -/
inductive Phase where
  | running
  | draining
  | joiningWorkers
  | done
deriving DecidableEq, Repr

/-- Observable actions of the loop body: calls into the foreign runtime
(`jl_process_events`, `jl_yield`, the Julia-side `sleep`), yielding to the
backing executor (`R::yield_now`), spawning or synchronously running a task,
task completion, joining a worker, and `jl_atexit_hook`. -/
inductive Event where
  | processEvents
  | yieldNow
  | jlYield
  | sleep
  | spawned (idx tid : Nat)
  | ranSync (tid : Nat)
  | completed (idx tid : Nat)
  | joinedWorker
  | atexit
deriving DecidableEq, Repr

/-- The state of the scheduler loop in `run_inner`:
`free` is the `free_stacks` VecDeque of slot indices (head = front),
`running` is the `running_tasks` boxed slice (`Some tid` = a spawned task is
using that slot), `queue`/`closed` model the pending contents and closed flag
of the receiving end of the channel, `workers` the number of unjoined worker
threads, `phase` the control position of the loop, and `events` the trace of
observable actions so far. -/
structure LoopState where
  free : List Nat
  running : List (Option Nat)
  queue : List MessageInner
  closed : Bool
  workers : Nat
  phase : Phase
  events : List Event
deriving DecidableEq, Repr

/-- Labels naming the possible atomic steps of the system: producer-side
sends and channel closure, the branches of the loop body, and completion of a
spawned cooperative task. -/
inductive Label where
  | submit (m : MessageInner)
  | close
  | noSlotPoll
  | timeoutPoll
  | recv
  | closedBreak
  | complete (idx : Nat)
  | drainPoll
  | drainFinish
  | joinPoll
  | joinWorker
  | finish
deriving DecidableEq, Repr

/-- One atomic step of the system, embedded from the body of `run_inner`
(lines 541-635 of `runtime/async_rt/mod.rs`).  Returns `none` when the label
is not enabled in state `s`.

* `submit`/`close`: a producer enqueues a message / the last handle is
  dropped, closing the channel.
* `noSlotPoll`: `free_stacks.borrow().len() == 0` — process events, yield,
  `jl_yield`, and `continue` without receiving.
* `timeoutPoll`: `R::timeout` expired with no message — one
  `jl_process_events(); jl_yield();` and loop.
* `recv`: a message is received (requires a free slot to have been observed).
  `Task` and `PostBlockingTask` pop the front free slot and are spawned;
  `BlockingTask`, `Include` and `ErrorColor` run synchronously on the sync
  stack without touching the slot pool.
* `closedBreak`: `recv_main` returned `Err` (channel closed and empty) —
  `break` out of the receive loop.
* `complete idx`: the spawned future at slot `idx` finishes `task.call`
  (or `task.post`), pushes `idx` back onto `free_stacks` and clears
  `running_tasks[idx]`.
* `drainPoll`/`drainFinish`: the per-slot wait loop after the break.
* `joinPoll`/`joinWorker`: the worker-join loop.
* `finish`: `jl_atexit_hook(0)` and return. -/
def step (s : LoopState) : Label → Option LoopState
  | .submit m =>
    if s.closed then none
    else some { s with queue := s.queue ++ [m] }
  | .close =>
    if s.closed then none
    else some { s with closed := true }
  | .noSlotPoll =>
    if s.phase = Phase.running ∧ s.free = [] then
      some { s with events := s.events ++ [Event.processEvents, Event.yieldNow, Event.jlYield] }
    else none
  | .timeoutPoll =>
    if s.phase = Phase.running ∧ s.free ≠ [] ∧ s.queue = [] ∧ s.closed = false then
      some { s with events := s.events ++ [Event.processEvents, Event.jlYield] }
    else none
  | .recv =>
    if s.phase = Phase.running then
      match s.free, s.queue with
      | idx :: restFree, m :: restQueue =>
        match m with
        | .task tid =>
          some { s with
                 free := restFree
                 queue := restQueue
                 running := s.running.set idx (some tid)
                 events := s.events ++ [Event.spawned idx tid] }
        | .postBlockingTask tid =>
          some { s with
                 free := restFree
                 queue := restQueue
                 running := s.running.set idx (some tid)
                 events := s.events ++ [Event.spawned idx tid] }
        | .blockingTask tid =>
          some { s with queue := restQueue, events := s.events ++ [Event.ranSync tid] }
        | .includeTask _ tid =>
          some { s with queue := restQueue, events := s.events ++ [Event.ranSync tid] }
        | .errorColor _ tid =>
          some { s with queue := restQueue, events := s.events ++ [Event.ranSync tid] }
      | _, _ => none
    else none
  | .closedBreak =>
    if s.phase = Phase.running ∧ s.free ≠ [] ∧ s.queue = [] ∧ s.closed = true then
      some { s with phase := Phase.draining }
    else none
  | .complete idx =>
    match s.running[idx]? with
    | some (some tid) =>
      some { s with
             free := s.free ++ [idx]
             running := s.running.set idx none
             events := s.events ++ [Event.completed idx tid] }
    | _ => none
  | .drainPoll =>
    if s.phase = Phase.draining ∧ ¬ (∀ r ∈ s.running, r = none) then
      some { s with events := s.events ++ [Event.yieldNow, Event.sleep, Event.processEvents] }
    else none
  | .drainFinish =>
    if s.phase = Phase.draining ∧ (∀ r ∈ s.running, r = none) then
      some { s with phase := Phase.joiningWorkers }
    else none
  | .joinPoll =>
    if s.phase = Phase.joiningWorkers ∧ s.workers ≠ 0 then
      some { s with events := s.events ++ [Event.sleep, Event.processEvents] }
    else none
  | .joinWorker =>
    if s.phase = Phase.joiningWorkers ∧ s.workers ≠ 0 then
      some { s with workers := s.workers - 1, events := s.events ++ [Event.joinedWorker] }
    else none
  | .finish =>
    if s.phase = Phase.joiningWorkers ∧ s.workers = 0 then
      some { s with phase := Phase.done, events := s.events ++ [Event.atexit] }
    else none

/-- The state at loop entry (lines 510-536): `free_stacks` holds the indices
`0..N`, `running_tasks` is `N` empty slots, `W` workers have been spawned, and
the channel is open and empty. -/
def initState (N W : Nat) : LoopState :=
  { free := List.range N
    running := List.replicate N none
    queue := []
    closed := false
    workers := W
    phase := Phase.running
    events := [] }

/-- States reachable from the initial state of a runtime thread with `N`
slots and `W` workers. -/
inductive Reachable (N W : Nat) : LoopState → Prop where
  | init : Reachable N W (initState N W)
  | next {s s' : LoopState} {l : Label} :
      Reachable N W s → step s l = some s' → Reachable N W s'

/-- Number of slots currently occupied by an in-flight spawned task. -/
def busyCount (s : LoopState) : Nat :=
  (s.running.filter (fun r => r.isSome)).length

/-- Slot-pool accounting invariant: the `running_tasks` slice has length `N`,
the free deque holds no duplicates, and an index is in the free deque exactly
when it is a valid slot whose `running_tasks` entry is empty. -/
def SlotInv (N : Nat) (free : List Nat) (running : List (Option Nat)) : Prop :=
  running.length = N ∧ free.Nodup ∧
    ∀ i, i ∈ free ↔ running[i]? = some none

/-- Phase invariant: past the drain, every slot is empty; in the final state
all workers are joined; and `jl_atexit_hook` has run exactly when the loop has
returned. -/
def PhaseInv (s : LoopState) : Prop :=
  ((s.phase = Phase.joiningWorkers ∨ s.phase = Phase.done) → ∀ r ∈ s.running, r = none) ∧
    (s.phase = Phase.done → s.workers = 0) ∧
    (Event.atexit ∈ s.events ↔ s.phase = Phase.done)

/-- Combined invariant of the scheduler loop. -/
def Inv (N : Nat) (s : LoopState) : Prop :=
  SlotInv N s.free s.running ∧ PhaseInv s

/-- Relational presentation of the enabled steps: one constructor per branch
of the loop body, used to invert `step`. -/
inductive StepSpec (s : LoopState) : Label → LoopState → Prop where
  | submit (m : MessageInner) (hcl : s.closed = false) :
      StepSpec s (Label.submit m) { s with queue := s.queue ++ [m] }
  | close (hcl : s.closed = false) :
      StepSpec s Label.close { s with closed := true }
  | noSlotPoll (hph : s.phase = Phase.running) (hfree : s.free = []) :
      StepSpec s Label.noSlotPoll
        { s with events := s.events ++ [Event.processEvents, Event.yieldNow, Event.jlYield] }
  | timeoutPoll (hph : s.phase = Phase.running) (hfree : s.free ≠ [])
      (hq : s.queue = []) (hcl : s.closed = false) :
      StepSpec s Label.timeoutPoll
        { s with events := s.events ++ [Event.processEvents, Event.jlYield] }
  | recvTask (idx : Nat) (restFree : List Nat) (tid : Nat) (restQueue : List MessageInner)
      (hph : s.phase = Phase.running) (hfree : s.free = idx :: restFree)
      (hq : s.queue = MessageInner.task tid :: restQueue) :
      StepSpec s Label.recv
        { s with
          free := restFree
          queue := restQueue
          running := s.running.set idx (some tid)
          events := s.events ++ [Event.spawned idx tid] }
  | recvPostBlocking (idx : Nat) (restFree : List Nat) (tid : Nat)
      (restQueue : List MessageInner)
      (hph : s.phase = Phase.running) (hfree : s.free = idx :: restFree)
      (hq : s.queue = MessageInner.postBlockingTask tid :: restQueue) :
      StepSpec s Label.recv
        { s with
          free := restFree
          queue := restQueue
          running := s.running.set idx (some tid)
          events := s.events ++ [Event.spawned idx tid] }
  | recvBlocking (idx : Nat) (restFree : List Nat) (tid : Nat)
      (restQueue : List MessageInner)
      (hph : s.phase = Phase.running) (hfree : s.free = idx :: restFree)
      (hq : s.queue = MessageInner.blockingTask tid :: restQueue) :
      StepSpec s Label.recv
        { s with queue := restQueue, events := s.events ++ [Event.ranSync tid] }
  | recvInclude (idx : Nat) (restFree : List Nat) (path : String) (tid : Nat)
      (restQueue : List MessageInner)
      (hph : s.phase = Phase.running) (hfree : s.free = idx :: restFree)
      (hq : s.queue = MessageInner.includeTask path tid :: restQueue) :
      StepSpec s Label.recv
        { s with queue := restQueue, events := s.events ++ [Event.ranSync tid] }
  | recvErrorColor (idx : Nat) (restFree : List Nat) (enable : Bool) (tid : Nat)
      (restQueue : List MessageInner)
      (hph : s.phase = Phase.running) (hfree : s.free = idx :: restFree)
      (hq : s.queue = MessageInner.errorColor enable tid :: restQueue) :
      StepSpec s Label.recv
        { s with queue := restQueue, events := s.events ++ [Event.ranSync tid] }
  | closedBreak (hph : s.phase = Phase.running) (hfree : s.free ≠ [])
      (hq : s.queue = []) (hcl : s.closed = true) :
      StepSpec s Label.closedBreak { s with phase := Phase.draining }
  | complete (idx tid : Nat) (hb : s.running[idx]? = some (some tid)) :
      StepSpec s (Label.complete idx)
        { s with
          free := s.free ++ [idx]
          running := s.running.set idx none
          events := s.events ++ [Event.completed idx tid] }
  | drainPoll (hph : s.phase = Phase.draining) (hbusy : ¬ (∀ r ∈ s.running, r = none)) :
      StepSpec s Label.drainPoll
        { s with events := s.events ++ [Event.yieldNow, Event.sleep, Event.processEvents] }
  | drainFinish (hph : s.phase = Phase.draining) (hall : ∀ r ∈ s.running, r = none) :
      StepSpec s Label.drainFinish { s with phase := Phase.joiningWorkers }
  | joinPoll (hph : s.phase = Phase.joiningWorkers) (hw : s.workers ≠ 0) :
      StepSpec s Label.joinPoll
        { s with events := s.events ++ [Event.sleep, Event.processEvents] }
  | joinWorker (hph : s.phase = Phase.joiningWorkers) (hw : s.workers ≠ 0) :
      StepSpec s Label.joinWorker
        { s with workers := s.workers - 1, events := s.events ++ [Event.joinedWorker] }
  | finish (hph : s.phase = Phase.joiningWorkers) (hw : s.workers = 0) :
      StepSpec s Label.finish
        { s with phase := Phase.done, events := s.events ++ [Event.atexit] }

/-- Affinities of the submission API, from `async_util::affinity` as used in
mod.rs: `DispatchAny`, `DispatchMain`, and a specific-worker variant. -/
inductive Affinity where
  | dispatchAny
  | dispatchMain
  | dispatchWorker (id : Nat)
deriving DecidableEq, Repr

/-- Embeds `Dispatch::new(&self.sender, msg)`: a pending dispatch holding the
message and the affinity type parameter `A` of `Dispatch<A>`, which in the
source is a phantom type and is represented here as data. -/
structure Dispatch where
  affinity : Affinity
  msg : MessageInner
deriving DecidableEq, Repr

/-- Embeds `AsyncJulia::blocking_task` (mod.rs lines 258-268): wraps the closure in
a `BlockingTask` envelope and returns `Dispatch<DispatchAny>`. -/
def blocking_task (tid : Nat) : Dispatch :=
  { affinity := Affinity.dispatchAny, msg := MessageInner.blockingTask tid }

/-- Embeds `AsyncJulia::blocking_task_with_affinity` (lines 277-288): as
`blocking_task` with a caller-chosen affinity. -/
def blocking_task_with_affinity (affinity : Affinity) (tid : Nat) : Dispatch :=
  { affinity := affinity, msg := MessageInner.blockingTask tid }

/-- Embeds `AsyncJulia::post_blocking_task` (lines 297-307): wraps the closure in a
`BlockingTask` envelope inside a `PostBlockingTask` message and returns
`Dispatch<DispatchAny>`. -/
def post_blocking_task (tid : Nat) : Dispatch :=
  { affinity := Affinity.dispatchAny, msg := MessageInner.postBlockingTask tid }

/-- The variant `IOError::NotFound` as raised by `AsyncJulia::include`. -/
inductive IOError where
  | notFound (path : String)
deriving DecidableEq, Repr

/-- Embeds `AsyncJulia::include` (lines 354-368): checks `path.as_ref().exists()`
first, returning `IOError::NotFound` without constructing any message, and
otherwise wraps an `IncludeTask` and returns `Dispatch<DispatchMain>`.  The
filesystem existence check is abstracted as the boolean `pathExists`. -/
def include_file (pathExists : Bool) (path : String) (tid : Nat) :
    Except IOError Dispatch :=
  if pathExists = false then
    Except.error (IOError.notFound path)
  else
    Except.ok { affinity := Affinity.dispatchMain
                msg := MessageInner.includeTask path tid }

/-- Embeds `AsyncJulia::error_color` (lines 377-384): wraps a `SetErrorColorTask`
and returns `Dispatch<DispatchMain>`. -/
def error_color (enable : Bool) (tid : Nat) : Dispatch :=
  { affinity := Affinity.dispatchMain, msg := MessageInner.errorColor enable tid }

/-- The `RuntimeError` variants produced by the persistent handle in mod.rs. -/
inductive RuntimeError where
  | channelClosed
  | channelFull
deriving DecidableEq, Repr

/-- State of a bounded channel: buffered messages, capacity, closed flag. -/
structure ChannelState (α : Type) where
  buffer : List α
  capacity : Nat
  closed : Bool

/-- Modelled from the spec: the `ChannelSender::send` contract of
`async_util::channel`, whose source is not in this source set — "`send(msg)`
awaits until there is room, then enqueues; fails only if the channel has been
closed".  The value is the outcome once the suspension completes. -/
def sendSpec {α : Type} (st : ChannelState α) (x : α) :
    Except Unit (ChannelState α) :=
  if st.closed then Except.error ()
  else Except.ok { st with buffer := st.buffer ++ [x] }

/-- The type `TrySendError` as matched on by `PersistentHandle::try_call`. -/
inductive TrySendError (α : Type) where
  | full (x : α)
  | closed (x : α)

/-- Modelled from the spec: `ChannelSender::try_send` — "enqueues immediately
or fails with `Full` or `Closed`". -/
def trySendSpec {α : Type} (st : ChannelState α) (x : α) :
    Except (TrySendError α) (ChannelState α) :=
  if st.closed then Except.error (TrySendError.closed x)
  else if st.capacity ≤ st.buffer.length then Except.error (TrySendError.full x)
  else Except.ok { st with buffer := st.buffer ++ [x] }

/-- A `CallPersistentTask` message as constructed by `PersistentHandle::call`
and `try_call`: the input and the one-shot result sender, abstracted to
ids. -/
structure PersistentMessage where
  input : Nat
  sender : Nat
deriving DecidableEq, Repr

/-- Embeds `PersistentHandle::call` (mod.rs lines 730-746): sends a
`CallPersistentTask` message through the actor's private channel and maps any
send failure to `RuntimeError::ChannelClosed`. -/
def PersistentHandle.call (st : ChannelState PersistentMessage)
    (input sender : Nat) : Except RuntimeError (ChannelState PersistentMessage) :=
  match sendSpec st { input := input, sender := sender } with
  | Except.error _ => Except.error RuntimeError.channelClosed
  | Except.ok st' => Except.ok st'

/-- Embeds `PersistentHandle::try_call` (lines 753-771): tries to send, mapping
`TrySendError::Full` to `ChannelFull` and `TrySendError::Closed` to
`ChannelClosed`. -/
def PersistentHandle.try_call (st : ChannelState PersistentMessage)
    (input sender : Nat) : Except RuntimeError (ChannelState PersistentMessage) :=
  match trySendSpec st { input := input, sender := sender } with
  | Except.error (TrySendError.full _) => Except.error RuntimeError.channelFull
  | Except.error (TrySendError.closed _) => Except.error RuntimeError.channelClosed
  | Except.ok st' => Except.ok st'

/-- Modelled from the spec: the capacity state of the task queue behind
`queue::Sender`, whose source module (`async_rt/queue.rs`) is not in this
source set.  Per the spec the channel "distinguishes a main sub-queue from a
worker sub-queue when multiple runtime threads exist"; the worker sub-queue
exists (`some`) only when the runtime has workers. -/
structure QueueState where
  mainCapacity : Nat
  workerCapacity : Option Nat
deriving DecidableEq, Repr

/-- Modelled from the spec: `Sender::resize_main_queue` returns a suspension
that completes once the main sub-queue is resized; the value is the state
once it completes. -/
def Sender.resize_main_queue (q : QueueState) (capacity : Nat) : QueueState :=
  { q with mainCapacity := capacity }

/-- Modelled from the spec: `Sender::resize_worker_queue` returns a
suspension completing once the worker sub-queue is resized, or `None` when
there is no worker sub-queue, in which case no resize is needed. -/
def Sender.resize_worker_queue (q : QueueState) (capacity : Nat) :
    Option QueueState :=
  match q.workerCapacity with
  | some _ => some { q with workerCapacity := some capacity }
  | none => none

/-- Modelled from the spec: `Sender::resize_queue` resizes the whole queue
(both sub-queues); `None` when there is no worker sub-queue. -/
def Sender.resize_queue (q : QueueState) (capacity : Nat) : Option QueueState :=
  match q.workerCapacity with
  | some _ => some { mainCapacity := capacity, workerCapacity := some capacity }
  | none => none

/-- Embeds `AsyncJulia::resize_queue` (mod.rs lines 161-166): delegates to
`self.sender.resize_queue(capacity)`. -/
def AsyncJulia.resize_queue (q : QueueState) (capacity : Nat) : Option QueueState :=
  Sender.resize_queue q capacity

/-- Embeds `AsyncJulia::resize_main_queue` (lines 184-186): delegates to
`self.sender.resize_main_queue(capacity)`; always returns a future, never an
`Option`. -/
def AsyncJulia.resize_main_queue (q : QueueState) (capacity : Nat) : QueueState :=
  Sender.resize_main_queue q capacity

/-- Embeds `AsyncJulia::resize_worker_queue` (lines 200-205): delegates to
`self.sender.resize_worker_queue(capacity)`. -/
def AsyncJulia.resize_worker_queue (q : QueueState) (capacity : Nat) :
    Option QueueState :=
  Sender.resize_worker_queue q capacity

/-- Sample run, stage 0: one slot, no workers — the initial state. -/
def demo0 : LoopState := initState 1 0

/-- Sample run, stage 1: an async task has been submitted. -/
def demo1 : LoopState :=
  { free := [0]
    running := [none]
    queue := [MessageInner.task 3]
    closed := false
    workers := 0
    phase := Phase.running
    events := [] }

/-- Sample run, stage 2: the task has been admitted and spawned; the only
slot is busy. -/
def demo2 : LoopState :=
  { free := []
    running := [some 3]
    queue := []
    closed := false
    workers := 0
    phase := Phase.running
    events := [Event.spawned 0 3] }

/-- Sample run, stage 3: the last handle has been dropped (channel closed)
while the task is still in flight. -/
def demo3 : LoopState :=
  { free := []
    running := [some 3]
    queue := []
    closed := true
    workers := 0
    phase := Phase.running
    events := [Event.spawned 0 3] }

/-- Sample run, stage 4: the task completed and released its slot. -/
def demo4 : LoopState :=
  { free := [0]
    running := [none]
    queue := []
    closed := true
    workers := 0
    phase := Phase.running
    events := [Event.spawned 0 3, Event.completed 0 3] }

/-- Sample run, stage 5: the loop observed the closed channel and broke out
of the receive loop. -/
def demo5 : LoopState :=
  { free := [0]
    running := [none]
    queue := []
    closed := true
    workers := 0
    phase := Phase.draining
    events := [Event.spawned 0 3, Event.completed 0 3] }

/-- Sample run, stage 6: the drain over the slots found them all free. -/
def demo6 : LoopState :=
  { free := [0]
    running := [none]
    queue := []
    closed := true
    workers := 0
    phase := Phase.joiningWorkers
    events := [Event.spawned 0 3, Event.completed 0 3] }

/-- Sample run, stage 7: teardown (`jl_atexit_hook`) has run. -/
def demo7 : LoopState :=
  { free := [0]
    running := [none]
    queue := []
    closed := true
    workers := 0
    phase := Phase.done
    events := [Event.spawned 0 3, Event.completed 0 3, Event.atexit] }

/-- Post-blocking sample, stage 1: a post-blocking task has been
submitted. -/
def demoPB1 : LoopState :=
  { free := [0]
    running := [none]
    queue := [MessageInner.postBlockingTask 5]
    closed := false
    workers := 0
    phase := Phase.running
    events := [] }

/-- Post-blocking sample, stage 2: the post-blocking task has been admitted,
taking the only slot, and runs as a spawned cooperative unit. -/
def demoPB2 : LoopState :=
  { free := []
    running := [some 5]
    queue := []
    closed := false
    workers := 0
    phase := Phase.running
    events := [Event.spawned 0 5] }

/-- The invariants hold in the initial state. -/
theorem inv_init (N W : Nat) : Inv N (initState N W) := by
  refine ⟨⟨by simp [initState], by simp [initState, List.nodup_range], ?_⟩, ?_, ?_, ?_⟩
  · intro i
    by_cases h : i < N <;>
      simp [initState, List.mem_range, List.getElem?_replicate, h]
  · intro h
    rcases h with h | h <;> simp [initState] at h
  · intro h
    simp [initState] at h
  · simp [initState]

/-- Admitting a cooperative task pops the front free slot and marks it busy,
preserving the slot accounting. -/
theorem slotInv_acquire {N idx : Nat} {rest : List Nat} {running : List (Option Nat)}
    (h : SlotInv N (idx :: rest) running) (tid : Nat) :
    SlotInv N rest (running.set idx (some tid)) := by
  obtain ⟨hlen, hnodup, hmem⟩ := h
  have hidx : running[idx]? = some none := (hmem idx).mp (List.mem_cons_self idx rest)
  have hlt : idx < running.length := (List.getElem?_eq_some.mp hidx).1
  have hnotmem : idx ∉ rest := (List.nodup_cons.mp hnodup).1
  refine ⟨by simp [hlen], (List.nodup_cons.mp hnodup).2, ?_⟩
  intro i
  rcases eq_or_ne i idx with rfl | hne
  · simp [List.getElem?_set_self hlt, hnotmem]
  · rw [List.getElem?_set_ne hne.symm]
    constructor
    · intro hi
      exact (hmem i).mp (List.mem_cons_of_mem _ hi)
    · intro hri
      rcases List.mem_cons.mp ((hmem i).mpr hri) with h | h
      · exact absurd h hne
      · exact h

/-- Releasing a slot on task completion pushes it to the back of the free
deque and clears its entry, preserving the slot accounting. -/
theorem slotInv_complete {N idx tid : Nat} {free : List Nat} {running : List (Option Nat)}
    (h : SlotInv N free running) (hb : running[idx]? = some (some tid)) :
    SlotInv N (free ++ [idx]) (running.set idx none) := by
  obtain ⟨hlen, hnodup, hmem⟩ := h
  have hlt : idx < running.length := (List.getElem?_eq_some.mp hb).1
  have hni : idx ∉ free := by
    intro hin
    have h2 := (hmem idx).mp hin
    rw [hb] at h2
    simp at h2
  refine ⟨by simp [hlen], ?_, ?_⟩
  · rw [List.nodup_append]
    refine ⟨hnodup, List.nodup_singleton idx, ?_⟩
    intro a ha hb2
    rcases List.mem_singleton.mp hb2 with rfl
    exact hni ha
  · intro i
    rcases eq_or_ne i idx with rfl | hne
    · simp [List.getElem?_set_self hlt, List.mem_append]
    · rw [List.getElem?_set_ne hne.symm]
      simp only [List.mem_append, List.mem_singleton]
      constructor
      · rintro (hi | rfl)
        · exact (hmem i).mp hi
        · exact absurd rfl hne
      · intro hri
        exact Or.inl ((hmem i).mpr hri)

/-- Appending events which do not contain `atexit` cannot introduce it. -/
theorem atexit_mono {evs : List Event} (hev : Event.atexit ∉ evs) {base : List Event}
    (h : Event.atexit ∈ base ++ evs) : Event.atexit ∈ base := by
  rcases List.mem_append.mp h with h | h
  · exact h
  · exact absurd h hev

/-- A step which changes only the event trace, adding no `atexit`, preserves
the phase invariant. -/
theorem phaseInv_of_events {s : LoopState} (h : PhaseInv s) (evs : List Event)
    (hev : Event.atexit ∉ evs) :
    PhaseInv { s with events := s.events ++ evs } := by
  obtain ⟨h1, h2, h3⟩ := h
  refine ⟨h1, h2, ?_⟩
  constructor
  · intro ha
    exact h3.mp (atexit_mono hev ha)
  · intro hd
    exact List.mem_append.mpr (Or.inl (h3.mpr hd))

/-- Any step between pre-shutdown phases (running or draining) which does not
add an `atexit` event preserves the phase invariant. -/
theorem phaseInv_prefinal {s t : LoopState} (h : PhaseInv s)
    (hs : s.phase = Phase.running ∨ s.phase = Phase.draining)
    (ht : t.phase = Phase.running ∨ t.phase = Phase.draining)
    (hev : Event.atexit ∈ t.events → Event.atexit ∈ s.events) :
    PhaseInv t := by
  obtain ⟨_, _, h3⟩ := h
  refine ⟨?_, ?_, ?_⟩
  · intro hc
    rcases ht with ht | ht <;> rw [ht] at hc <;> rcases hc with hc | hc <;> cases hc
  · intro hc
    rcases ht with ht | ht <;> rw [ht] at hc <;> cases hc
  · constructor
    · intro ha
      have hd := h3.mp (hev ha)
      rcases hs with hs | hs <;> rw [hs] at hd <;> cases hd
    · intro hd
      rcases ht with ht | ht <;> rw [ht] at hd <;> cases hd

/-- Every enabled step of the scheduler preserves the combined invariant. -/
theorem step_preserves_inv {N : Nat} {s s' : LoopState} {l : Label}
    (hInv : Inv N s) (hstep : step s l = some s') : Inv N s' := by
  obtain ⟨hslot, hphase⟩ := hInv
  cases l with
  | submit m =>
    simp only [step] at hstep
    split at hstep
    · cases hstep
    · cases hstep
      exact ⟨hslot, hphase⟩
  | close =>
    simp only [step] at hstep
    split at hstep
    · cases hstep
    · cases hstep
      exact ⟨hslot, hphase⟩
  | noSlotPoll =>
    simp only [step] at hstep
    split at hstep
    case isTrue hc =>
      cases hstep
      exact ⟨hslot, phaseInv_of_events hphase _ (by decide)⟩
    case isFalse => cases hstep
  | timeoutPoll =>
    simp only [step] at hstep
    split at hstep
    case isTrue hc =>
      cases hstep
      exact ⟨hslot, phaseInv_of_events hphase _ (by decide)⟩
    case isFalse => cases hstep
  | recv =>
    simp only [step] at hstep
    split at hstep
    case isFalse => cases hstep
    case isTrue hrun =>
      split at hstep
      case h_2 => cases hstep
      case h_1 x1 x2 idx restFree m restQueue hfree hq =>
        cases m with
        | task tid =>
          cases hstep
          refine ⟨slotInv_acquire (hfree ▸ hslot) tid, ?_⟩
          refine phaseInv_prefinal hphase (Or.inl hrun) (Or.inl hrun) ?_
          exact atexit_mono (show Event.atexit ∉ [Event.spawned idx tid] by simp)
        | postBlockingTask tid =>
          cases hstep
          refine ⟨slotInv_acquire (hfree ▸ hslot) tid, ?_⟩
          refine phaseInv_prefinal hphase (Or.inl hrun) (Or.inl hrun) ?_
          exact atexit_mono (show Event.atexit ∉ [Event.spawned idx tid] by simp)
        | blockingTask tid =>
          cases hstep
          refine ⟨hslot, ?_⟩
          refine phaseInv_prefinal hphase (Or.inl hrun) (Or.inl hrun) ?_
          exact atexit_mono (show Event.atexit ∉ [Event.ranSync tid] by simp)
        | includeTask path tid =>
          cases hstep
          refine ⟨hslot, ?_⟩
          refine phaseInv_prefinal hphase (Or.inl hrun) (Or.inl hrun) ?_
          exact atexit_mono (show Event.atexit ∉ [Event.ranSync tid] by simp)
        | errorColor enable tid =>
          cases hstep
          refine ⟨hslot, ?_⟩
          refine phaseInv_prefinal hphase (Or.inl hrun) (Or.inl hrun) ?_
          exact atexit_mono (show Event.atexit ∉ [Event.ranSync tid] by simp)
  | closedBreak =>
    simp only [step] at hstep
    split at hstep
    case isTrue hc =>
      cases hstep
      refine ⟨hslot, ?_⟩
      exact phaseInv_prefinal hphase (Or.inl hc.1) (Or.inr rfl) (fun h => h)
    case isFalse => cases hstep
  | complete idx =>
    simp only [step] at hstep
    split at hstep
    case h_2 => cases hstep
    case h_1 tid hb =>
      cases hstep
      refine ⟨slotInv_complete hslot hb, ?_⟩
      obtain ⟨hpost, hworkers, hatexit⟩ := hphase
      have hbusy : ¬ (s.phase = Phase.joiningWorkers ∨ s.phase = Phase.done) := by
        intro hc
        have hall := hpost hc
        have hmem := List.getElem?_mem hb
        have := hall _ hmem
        simp at this
      have hrd : s.phase = Phase.running ∨ s.phase = Phase.draining := by
        cases hph : s.phase
        · exact Or.inl rfl
        · exact Or.inr rfl
        · exact absurd (Or.inl hph) hbusy
        · exact absurd (Or.inr hph) hbusy
      exact phaseInv_prefinal ⟨hpost, hworkers, hatexit⟩ hrd hrd
        (atexit_mono (show Event.atexit ∉ [Event.completed idx tid] by simp))
  | drainPoll =>
    simp only [step] at hstep
    split at hstep
    case isTrue hc =>
      cases hstep
      exact ⟨hslot, phaseInv_of_events hphase _ (by decide)⟩
    case isFalse => cases hstep
  | drainFinish =>
    simp only [step] at hstep
    split at hstep
    case isTrue hc =>
      cases hstep
      obtain ⟨hpost, hworkers, hatexit⟩ := hphase
      refine ⟨hslot, fun _ => hc.2, ?_, ?_⟩
      · intro hd
        cases hd
      · constructor
        · intro ha
          have hd := hatexit.mp ha
          rw [hc.1] at hd
          cases hd
        · intro hd
          cases hd
    case isFalse => cases hstep
  | joinPoll =>
    simp only [step] at hstep
    split at hstep
    case isTrue hc =>
      cases hstep
      exact ⟨hslot, phaseInv_of_events hphase _ (by decide)⟩
    case isFalse => cases hstep
  | joinWorker =>
    simp only [step] at hstep
    split at hstep
    case isTrue hc =>
      cases hstep
      obtain ⟨hpost, hworkers, hatexit⟩ := hphase
      refine ⟨hslot, fun _ => hpost (Or.inl hc.1), ?_, ?_⟩
      · intro hd
        rw [hc.1] at hd
        cases hd
      · constructor
        · intro ha
          have hd := hatexit.mp
            (atexit_mono (show Event.atexit ∉ [Event.joinedWorker] by simp) ha)
          rw [hc.1] at hd
          cases hd
        · intro hd
          rw [hc.1] at hd
          cases hd
    case isFalse => cases hstep
  | finish =>
    simp only [step] at hstep
    split at hstep
    case isTrue hc =>
      cases hstep
      obtain ⟨hpost, hworkers, hatexit⟩ := hphase
      refine ⟨hslot, fun _ => hpost (Or.inl hc.1), fun _ => hc.2, ?_⟩
      constructor
      · intro _
        rfl
      · intro _
        exact List.mem_append.mpr (Or.inr (by decide))
    case isFalse => cases hstep

/-- The combined invariant holds in every reachable state. -/
theorem reachable_inv {N W : Nat} {s : LoopState} (h : Reachable N W s) : Inv N s := by
  induction h with
  | init => exact inv_init N W
  | next _ hstep ih => exact step_preserves_inv ih hstep

/-- Inversion of `step`: every enabled step arises from one of the branches
of the loop body. -/
theorem step_spec {s s' : LoopState} {l : Label} (hstep : step s l = some s') :
    StepSpec s l s' := by
  cases l with
  | submit m =>
    simp only [step] at hstep
    split at hstep
    case isTrue => cases hstep
    case isFalse hc =>
      cases hstep
      exact StepSpec.submit m (by simpa using hc)
  | close =>
    simp only [step] at hstep
    split at hstep
    case isTrue => cases hstep
    case isFalse hc =>
      cases hstep
      exact StepSpec.close (by simpa using hc)
  | noSlotPoll =>
    simp only [step] at hstep
    split at hstep
    case isTrue hc =>
      cases hstep
      exact StepSpec.noSlotPoll hc.1 hc.2
    case isFalse => cases hstep
  | timeoutPoll =>
    simp only [step] at hstep
    split at hstep
    case isTrue hc =>
      cases hstep
      exact StepSpec.timeoutPoll hc.1 hc.2.1 hc.2.2.1 hc.2.2.2
    case isFalse => cases hstep
  | recv =>
    simp only [step] at hstep
    split at hstep
    case isFalse => cases hstep
    case isTrue hrun =>
      split at hstep
      case h_2 => cases hstep
      case h_1 x1 x2 idx restFree m restQueue hfree hq =>
        cases m with
        | task tid =>
          cases hstep
          exact StepSpec.recvTask idx restFree tid restQueue hrun hfree hq
        | postBlockingTask tid =>
          cases hstep
          exact StepSpec.recvPostBlocking idx restFree tid restQueue hrun hfree hq
        | blockingTask tid =>
          cases hstep
          exact StepSpec.recvBlocking idx restFree tid restQueue hrun hfree hq
        | includeTask path tid =>
          cases hstep
          exact StepSpec.recvInclude idx restFree path tid restQueue hrun hfree hq
        | errorColor enable tid =>
          cases hstep
          exact StepSpec.recvErrorColor idx restFree enable tid restQueue hrun hfree hq
  | closedBreak =>
    simp only [step] at hstep
    split at hstep
    case isTrue hc =>
      cases hstep
      exact StepSpec.closedBreak hc.1 hc.2.1 hc.2.2.1 hc.2.2.2
    case isFalse => cases hstep
  | complete idx =>
    simp only [step] at hstep
    split at hstep
    case h_2 => cases hstep
    case h_1 tid hb =>
      cases hstep
      exact StepSpec.complete idx tid hb
  | drainPoll =>
    simp only [step] at hstep
    split at hstep
    case isTrue hc =>
      cases hstep
      exact StepSpec.drainPoll hc.1 hc.2
    case isFalse => cases hstep
  | drainFinish =>
    simp only [step] at hstep
    split at hstep
    case isTrue hc =>
      cases hstep
      exact StepSpec.drainFinish hc.1 hc.2
    case isFalse => cases hstep
  | joinPoll =>
    simp only [step] at hstep
    split at hstep
    case isTrue hc =>
      cases hstep
      exact StepSpec.joinPoll hc.1 hc.2
    case isFalse => cases hstep
  | joinWorker =>
    simp only [step] at hstep
    split at hstep
    case isTrue hc =>
      cases hstep
      exact StepSpec.joinWorker hc.1 hc.2
    case isFalse => cases hstep
  | finish =>
    simp only [step] at hstep
    split at hstep
    case isTrue hc =>
      cases hstep
      exact StepSpec.finish hc.1 hc.2
    case isFalse => cases hstep

/-- Stage 1 of the sample run is reachable. -/
theorem demo1_reachable : Reachable 1 0 demo1 :=
  @Reachable.next 1 0 demo0 demo1 (Label.submit (MessageInner.task 3))
    Reachable.init (by decide)

/-- Stage 2 of the sample run is reachable. -/
theorem demo2_reachable : Reachable 1 0 demo2 :=
  @Reachable.next 1 0 demo1 demo2 Label.recv demo1_reachable (by decide)

/-- Stage 3 of the sample run is reachable. -/
theorem demo3_reachable : Reachable 1 0 demo3 :=
  @Reachable.next 1 0 demo2 demo3 Label.close demo2_reachable (by decide)

/-- Stage 4 of the sample run is reachable. -/
theorem demo4_reachable : Reachable 1 0 demo4 :=
  @Reachable.next 1 0 demo3 demo4 (Label.complete 0) demo3_reachable (by decide)

/-- Stage 5 of the sample run is reachable. -/
theorem demo5_reachable : Reachable 1 0 demo5 :=
  @Reachable.next 1 0 demo4 demo5 Label.closedBreak demo4_reachable (by decide)

/-- Stage 6 of the sample run is reachable. -/
theorem demo6_reachable : Reachable 1 0 demo6 :=
  @Reachable.next 1 0 demo5 demo6 Label.drainFinish demo5_reachable (by decide)

/-- Stage 7 of the sample run is reachable. -/
theorem demo7_reachable : Reachable 1 0 demo7 :=
  @Reachable.next 1 0 demo6 demo7 Label.finish demo6_reachable (by decide)

/-- Stage 1 of the post-blocking sample is reachable. -/
theorem demoPB1_reachable : Reachable 1 0 demoPB1 :=
  @Reachable.next 1 0 demo0 demoPB1 (Label.submit (MessageInner.postBlockingTask 5))
    Reachable.init (by decide)

example : step (initState 2 0) (Label.submit (MessageInner.task 7)) =
    some { initState 2 0 with queue := [MessageInner.task 7] } := by decide

example :
    step { initState 2 0 with queue := [MessageInner.task 7] } Label.recv =
      some { free := [1], running := [some 7, none], queue := [], closed := false,
             workers := 0, phase := Phase.running,
             events := [Event.spawned 0 7] } := by decide

/-- C1: Slot-pool invariant of the scheduler loop.  In every reachable state
the `running_tasks` slice has the fixed length `N` and at most `N` spawned
tasks are in flight; the free deque is duplicate-free and holds exactly the
slots with no in-flight task; a slot index leaves the free set exactly when a
`Task` or `PostBlockingTask` message is admitted (it is the front free slot),
and re-enters it exactly once, via the completion step of the task occupying
it (success or failure alike, since `call` resolves in both cases), never
before. -/
theorem c1_slot_pool_invariant (N W : Nat) (s : LoopState) (h : Reachable N W s) :
    s.running.length = N ∧ s.free.Nodup ∧
    (∀ i, i ∈ s.free ↔ s.running[i]? = some none) ∧
    busyCount s ≤ N ∧
    (∀ l s', step s l = some s' →
      (∀ i, i ∈ s.free → i ∉ s'.free →
        l = Label.recv ∧ ∃ tid rest restQueue,
          s.free = i :: rest ∧ s'.free = rest ∧
          (s.queue = MessageInner.task tid :: restQueue ∨
            s.queue = MessageInner.postBlockingTask tid :: restQueue)) ∧
      (∀ i, i ∉ s.free → i ∈ s'.free →
        ∃ tid, l = Label.complete i ∧ s.running[i]? = some (some tid) ∧
          s'.running[i]? = some none ∧ s'.free = s.free ++ [i])) := by
  obtain ⟨⟨hlen, hnodup, hmem⟩, _⟩ := reachable_inv h
  refine ⟨hlen, hnodup, hmem, ?_, ?_⟩
  · calc busyCount s ≤ s.running.length := List.length_filter_le _ _
      _ = N := hlen
  · intro l s' hstep
    constructor
    · intro i hin hout
      cases step_spec hstep with
      | submit m hcl => exact absurd hin hout
      | close hcl => exact absurd hin hout
      | noSlotPoll hph hfree => exact absurd hin hout
      | timeoutPoll hph hfree hq hcl => exact absurd hin hout
      | recvTask idx restFree tid restQueue hph hfree hq =>
        rcases List.mem_cons.mp (hfree ▸ hin) with rfl | hmem2
        · exact ⟨rfl, tid, restFree, restQueue, hfree, rfl, Or.inl hq⟩
        · exact absurd hmem2 hout
      | recvPostBlocking idx restFree tid restQueue hph hfree hq =>
        rcases List.mem_cons.mp (hfree ▸ hin) with rfl | hmem2
        · exact ⟨rfl, tid, restFree, restQueue, hfree, rfl, Or.inr hq⟩
        · exact absurd hmem2 hout
      | recvBlocking idx restFree tid restQueue hph hfree hq => exact absurd hin hout
      | recvInclude idx restFree path tid restQueue hph hfree hq => exact absurd hin hout
      | recvErrorColor idx restFree enable tid restQueue hph hfree hq =>
        exact absurd hin hout
      | closedBreak hph hfree hq hcl => exact absurd hin hout
      | complete idx tid hb =>
        exact absurd (List.mem_append.mpr (Or.inl hin)) hout
      | drainPoll hph hbusy => exact absurd hin hout
      | drainFinish hph hall => exact absurd hin hout
      | joinPoll hph hw => exact absurd hin hout
      | joinWorker hph hw => exact absurd hin hout
      | finish hph hw => exact absurd hin hout
    · intro i hout hin
      cases step_spec hstep with
      | submit m hcl => exact absurd hin hout
      | close hcl => exact absurd hin hout
      | noSlotPoll hph hfree => exact absurd hin hout
      | timeoutPoll hph hfree hq hcl => exact absurd hin hout
      | recvTask idx restFree tid restQueue hph hfree hq =>
        exact absurd (hfree ▸ List.mem_cons_of_mem idx hin) hout
      | recvPostBlocking idx restFree tid restQueue hph hfree hq =>
        exact absurd (hfree ▸ List.mem_cons_of_mem idx hin) hout
      | recvBlocking idx restFree tid restQueue hph hfree hq => exact absurd hin hout
      | recvInclude idx restFree path tid restQueue hph hfree hq => exact absurd hin hout
      | recvErrorColor idx restFree enable tid restQueue hph hfree hq =>
        exact absurd hin hout
      | closedBreak hph hfree hq hcl => exact absurd hin hout
      | complete idx tid hb =>
        rcases List.mem_append.mp hin with hmem2 | hmem2
        · exact absurd hmem2 hout
        · rcases List.mem_singleton.mp hmem2 with rfl
          exact ⟨tid, rfl, hb,
            List.getElem?_set_self (List.getElem?_eq_some.mp hb).1, rfl⟩
      | drainPoll hph hbusy => exact absurd hin hout
      | drainFinish hph hall => exact absurd hin hout
      | joinPoll hph hw => exact absurd hin hout
      | joinWorker hph hw => exact absurd hin hout
      | finish hph hw => exact absurd hin hout

/-- Witness for C1 at a reachable state with one busy slot. -/
theorem c1_slot_pool_invariant_witness : busyCount demo2 ≤ 1 :=
  (c1_slot_pool_invariant 1 0 demo2 demo2_reachable).2.2.2.1

/-- C2: Shutdown is a drain, never an abort.  In every reachable state: the
teardown event (`jl_atexit_hook`) is in the trace only in the final phase,
with every slot drained and all workers joined; once the loop has left the
running phase no message can be received; the drain exit requires every slot
to be empty; the teardown step requires all workers joined and all slots
empty, and is what appends the teardown event; an in-flight task is never
removed from its slot except by its own completion step; and the drain wait
performs housekeeping polls without touching slots, queue, or phase. -/
theorem c2_shutdown_is_drain (N W : Nat) (s : LoopState) (h : Reachable N W s) :
    (Event.atexit ∈ s.events →
      s.phase = Phase.done ∧ (∀ r ∈ s.running, r = none) ∧ s.workers = 0) ∧
    (s.phase ≠ Phase.running →
      step s Label.recv = none ∧ step s Label.timeoutPoll = none ∧
      step s Label.noSlotPoll = none) ∧
    (∀ s', step s Label.drainFinish = some s' → ∀ r ∈ s.running, r = none) ∧
    (∀ s', step s Label.finish = some s' →
      s.workers = 0 ∧ (∀ r ∈ s.running, r = none) ∧
      s'.events = s.events ++ [Event.atexit]) ∧
    (∀ l s' i tid, step s l = some s' → s.running[i]? = some (some tid) →
      s'.running[i]? = some (some tid) ∨ l = Label.complete i) ∧
    (∀ s', step s Label.drainPoll = some s' →
      s'.queue = s.queue ∧ s'.free = s.free ∧ s'.running = s.running ∧
      s'.phase = s.phase ∧
      s'.events = s.events ++ [Event.yieldNow, Event.sleep, Event.processEvents]) := by
  obtain ⟨⟨hlen, hnodup, hmem⟩, hpost, hworkers, hatexit⟩ := reachable_inv h
  refine ⟨?_, ?_, ?_, ?_, ?_, ?_⟩
  · intro ha
    have hd := hatexit.mp ha
    exact ⟨hd, hpost (Or.inr hd), hworkers hd⟩
  · intro hph
    refine ⟨?_, ?_, ?_⟩
    · cases hres : step s Label.recv with
      | none => rfl
      | some s' =>
        cases step_spec hres with
        | recvTask idx restFree tid restQueue hph2 hf hq => exact absurd hph2 hph
        | recvPostBlocking idx restFree tid restQueue hph2 hf hq => exact absurd hph2 hph
        | recvBlocking idx restFree tid restQueue hph2 hf hq => exact absurd hph2 hph
        | recvInclude idx restFree path tid restQueue hph2 hf hq => exact absurd hph2 hph
        | recvErrorColor idx restFree enable tid restQueue hph2 hf hq =>
          exact absurd hph2 hph
    · cases hres : step s Label.timeoutPoll with
      | none => rfl
      | some s' =>
        cases step_spec hres with
        | timeoutPoll hph2 hf hq hcl => exact absurd hph2 hph
    · cases hres : step s Label.noSlotPoll with
      | none => rfl
      | some s' =>
        cases step_spec hres with
        | noSlotPoll hph2 hf => exact absurd hph2 hph
  · intro s' hstep
    cases step_spec hstep with
    | drainFinish hph hall => exact hall
  · intro s' hstep
    cases step_spec hstep with
    | finish hph hw => exact ⟨hw, hpost (Or.inl hph), rfl⟩
  · intro l s' i tid hstep hbusy
    cases step_spec hstep with
    | submit m hcl => exact Or.inl hbusy
    | close hcl => exact Or.inl hbusy
    | noSlotPoll hph hfree => exact Or.inl hbusy
    | timeoutPoll hph hfree hq hcl => exact Or.inl hbusy
    | recvTask idx restFree tid2 restQueue hph hfree hq =>
      have hidx : s.running[idx]? = some none :=
        (hmem idx).mp (hfree ▸ List.mem_cons_self idx restFree)
      have hne : idx ≠ i := by
        intro heq
        rw [heq, hbusy] at hidx
        simp at hidx
      exact Or.inl (by rw [List.getElem?_set_ne hne]; exact hbusy)
    | recvPostBlocking idx restFree tid2 restQueue hph hfree hq =>
      have hidx : s.running[idx]? = some none :=
        (hmem idx).mp (hfree ▸ List.mem_cons_self idx restFree)
      have hne : idx ≠ i := by
        intro heq
        rw [heq, hbusy] at hidx
        simp at hidx
      exact Or.inl (by rw [List.getElem?_set_ne hne]; exact hbusy)
    | recvBlocking idx restFree tid2 restQueue hph hfree hq => exact Or.inl hbusy
    | recvInclude idx restFree path tid2 restQueue hph hfree hq => exact Or.inl hbusy
    | recvErrorColor idx restFree enable tid2 restQueue hph hfree hq =>
      exact Or.inl hbusy
    | closedBreak hph hfree hq hcl => exact Or.inl hbusy
    | complete idx tid2 hb =>
      rcases eq_or_ne idx i with rfl | hne
      · exact Or.inr rfl
      · exact Or.inl (by rw [List.getElem?_set_ne hne]; exact hbusy)
    | drainPoll hph hbusy2 => exact Or.inl hbusy
    | drainFinish hph hall => exact Or.inl hbusy
    | joinPoll hph hw => exact Or.inl hbusy
    | joinWorker hph hw => exact Or.inl hbusy
    | finish hph hw => exact Or.inl hbusy
  · intro s' hstep
    cases step_spec hstep with
    | drainPoll hph hbusy => exact ⟨rfl, rfl, rfl, rfl, rfl⟩

/-- Witness for C2 at the fully shut-down end state of the sample run. -/
theorem c2_shutdown_is_drain_witness :
    demo7.phase = Phase.done ∧ (∀ r ∈ demo7.running, r = none) ∧
      demo7.workers = 0 :=
  (c2_shutdown_is_drain 1 0 demo7 demo7_reachable).1 (by decide)

/-- C3: When no slot is free the loop performs a housekeeping poll, yields
and retries without receiving: no receive step is enabled, the no-slot branch
changes only the event trace (the pending message stays at the head of the
queue — never dropped or reordered, as the queue only ever loses its head to
a receive or gains at its tail from a submit), and as soon as a slot is free
a pending cooperative message is admitted. -/
theorem c3_message_held_until_slot_frees (s : LoopState) :
    (s.free = [] → step s Label.recv = none) ∧
    (s.phase = Phase.running → s.free = [] →
      step s Label.noSlotPoll =
        some { s with
               events := s.events ++
                 [Event.processEvents, Event.yieldNow, Event.jlYield] }) ∧
    (∀ l s', step s l = some s' →
      s'.queue = s.queue ∨
      (∃ m, l = Label.submit m ∧ s'.queue = s.queue ++ [m]) ∨
      (l = Label.recv ∧ s.free ≠ [] ∧ ∃ m, s.queue = m :: s'.queue)) ∧
    (∀ tid restQueue, s.phase = Phase.running → s.free ≠ [] →
      s.queue = MessageInner.task tid :: restQueue →
      ∃ s', step s Label.recv = some s' ∧ s'.queue = restQueue) := by
  refine ⟨?_, ?_, ?_, ?_⟩
  · intro hfree
    cases hres : step s Label.recv with
    | none => rfl
    | some s' =>
      cases step_spec hres with
      | recvTask idx restFree tid restQueue hph hf hq =>
        rw [hf] at hfree
        cases hfree
      | recvPostBlocking idx restFree tid restQueue hph hf hq =>
        rw [hf] at hfree
        cases hfree
      | recvBlocking idx restFree tid restQueue hph hf hq =>
        rw [hf] at hfree
        cases hfree
      | recvInclude idx restFree path tid restQueue hph hf hq =>
        rw [hf] at hfree
        cases hfree
      | recvErrorColor idx restFree enable tid restQueue hph hf hq =>
        rw [hf] at hfree
        cases hfree
  · intro hph hfree
    simp only [step]
    rw [if_pos ⟨hph, hfree⟩]
  · intro l s' hstep
    cases step_spec hstep with
    | submit m hcl => exact Or.inr (Or.inl ⟨m, rfl, rfl⟩)
    | close hcl => exact Or.inl rfl
    | noSlotPoll hph hfree => exact Or.inl rfl
    | timeoutPoll hph hfree hq hcl => exact Or.inl rfl
    | recvTask idx restFree tid restQueue hph hf hq =>
      refine Or.inr (Or.inr ⟨rfl, ?_, MessageInner.task tid, hq⟩)
      rw [hf]
      simp
    | recvPostBlocking idx restFree tid restQueue hph hf hq =>
      refine Or.inr (Or.inr ⟨rfl, ?_, MessageInner.postBlockingTask tid, hq⟩)
      rw [hf]
      simp
    | recvBlocking idx restFree tid restQueue hph hf hq =>
      refine Or.inr (Or.inr ⟨rfl, ?_, MessageInner.blockingTask tid, hq⟩)
      rw [hf]
      simp
    | recvInclude idx restFree path tid restQueue hph hf hq =>
      refine Or.inr (Or.inr ⟨rfl, ?_, MessageInner.includeTask path tid, hq⟩)
      rw [hf]
      simp
    | recvErrorColor idx restFree enable tid restQueue hph hf hq =>
      refine Or.inr (Or.inr ⟨rfl, ?_, MessageInner.errorColor enable tid, hq⟩)
      rw [hf]
      simp
    | closedBreak hph hfree hq hcl => exact Or.inl rfl
    | complete idx tid hb => exact Or.inl rfl
    | drainPoll hph hbusy => exact Or.inl rfl
    | drainFinish hph hall => exact Or.inl rfl
    | joinPoll hph hw => exact Or.inl rfl
    | joinWorker hph hw => exact Or.inl rfl
    | finish hph hw => exact Or.inl rfl
  · intro tid restQueue hph hfree hq
    rcases hf : s.free with _ | ⟨idx, restFree⟩
    · exact absurd hf hfree
    · refine ⟨{ s with
          free := restFree
          queue := restQueue
          running := s.running.set idx (some tid)
          events := s.events ++ [Event.spawned idx tid] }, ?_, rfl⟩
      simp only [step]
      rw [if_pos hph, hf, hq]

/-- Witness for C3: at the state where the only slot is busy, no receive is
enabled. -/
theorem c3_message_held_until_slot_frees_witness :
    step demo2 Label.recv = none :=
  (c3_message_held_until_slot_frees demo2).1 rfl

/-- C8: The loop receive is always time-bounded; the timeout branch is
enabled exactly when the loop runs with a free slot and no pending message on
the open channel, and it performs exactly one housekeeping poll
(`jl_process_events` then `jl_yield`) leaving every other component of the
state unchanged, then loops. -/
theorem c8_timeout_housekeeping_poll (s : LoopState) :
    (∀ s', step s Label.timeoutPoll = some s' →
      s' = { s with events := s.events ++ [Event.processEvents, Event.jlYield] } ∧
      s.queue = [] ∧ s.phase = Phase.running) ∧
    (s.phase = Phase.running → s.free ≠ [] → s.queue = [] → s.closed = false →
      step s Label.timeoutPoll =
        some { s with events := s.events ++ [Event.processEvents, Event.jlYield] }) := by
  constructor
  · intro s' hstep
    cases step_spec hstep with
    | timeoutPoll hph hfree hq hcl => exact ⟨rfl, hq, hph⟩
  · intro hph hfree hq hcl
    simp only [step]
    rw [if_pos ⟨hph, hfree, hq, hcl⟩]

/-- Witness for C8 at the initial state of the sample run (free slot, empty
queue, open channel). -/
theorem c8_timeout_housekeeping_poll_witness :
    step demo0 Label.timeoutPoll =
      some { demo0 with
             events := demo0.events ++ [Event.processEvents, Event.jlYield] } :=
  (c8_timeout_housekeeping_poll demo0).2 rfl (by decide) rfl rfl

/-- C9: The free-slot check gates every receive: a receive step of any
message kind requires a free slot (and the running phase), and while all
slots are busy no receive is enabled at all — a pending blocking task,
include request or error-color request, none of which consumes a slot, is
delayed just the same; with no free slot even the timeout branch and the
shutdown break are disabled. -/
theorem c9_free_slot_gates_every_receive (s : LoopState) :
    (∀ s', step s Label.recv = some s' → s.free ≠ [] ∧ s.phase = Phase.running) ∧
    (s.free = [] → step s Label.recv = none) ∧
    (s.free = [] → ∀ tid rest, s.queue = MessageInner.blockingTask tid :: rest →
      step s Label.recv = none) ∧
    (s.free = [] → ∀ path tid rest, s.queue = MessageInner.includeTask path tid :: rest →
      step s Label.recv = none) ∧
    (s.free = [] → ∀ enable tid rest, s.queue = MessageInner.errorColor enable tid :: rest →
      step s Label.recv = none) ∧
    (s.free = [] → step s Label.timeoutPoll = none) ∧
    (s.free = [] → step s Label.closedBreak = none) := by
  have hnone : s.free = [] → step s Label.recv = none := by
    intro hfree
    cases hres : step s Label.recv with
    | none => rfl
    | some s' =>
      cases step_spec hres with
      | recvTask idx restFree tid restQueue hph hf hq =>
        rw [hf] at hfree
        cases hfree
      | recvPostBlocking idx restFree tid restQueue hph hf hq =>
        rw [hf] at hfree
        cases hfree
      | recvBlocking idx restFree tid restQueue hph hf hq =>
        rw [hf] at hfree
        cases hfree
      | recvInclude idx restFree path tid restQueue hph hf hq =>
        rw [hf] at hfree
        cases hfree
      | recvErrorColor idx restFree enable tid restQueue hph hf hq =>
        rw [hf] at hfree
        cases hfree
  refine ⟨?_, hnone, fun hf _ _ _ => hnone hf, fun hf _ _ _ _ => hnone hf,
    fun hf _ _ _ _ => hnone hf, ?_, ?_⟩
  · intro s' hstep
    cases step_spec hstep with
    | recvTask idx restFree tid restQueue hph hf hq =>
      exact ⟨by rw [hf]; simp, hph⟩
    | recvPostBlocking idx restFree tid restQueue hph hf hq =>
      exact ⟨by rw [hf]; simp, hph⟩
    | recvBlocking idx restFree tid restQueue hph hf hq =>
      exact ⟨by rw [hf]; simp, hph⟩
    | recvInclude idx restFree path tid restQueue hph hf hq =>
      exact ⟨by rw [hf]; simp, hph⟩
    | recvErrorColor idx restFree enable tid restQueue hph hf hq =>
      exact ⟨by rw [hf]; simp, hph⟩
  · intro hfree
    cases hres : step s Label.timeoutPoll with
    | none => rfl
    | some s' =>
      cases step_spec hres with
      | timeoutPoll hph hf hq hcl => exact absurd hfree hf
  · intro hfree
    cases hres : step s Label.closedBreak with
    | none => rfl
    | some s' =>
      cases step_spec hres with
      | closedBreak hph hf hq hcl => exact absurd hfree hf

/-- Witness for C9 at the state where the only slot is busy and the channel
is closed: even the shutdown break is gated on a free slot. -/
theorem c9_free_slot_gates_every_receive_witness :
    step demo3 Label.closedBreak = none :=
  (c9_free_slot_gates_every_receive demo3).2.2.2.2.2.2 rfl

/-- C10: A `PostBlockingTask` message is not executed synchronously on the
loop: admitting it pops the front free slot, registers a spawned cooperative
unit in that slot (appending a spawn event, not a synchronous-run event),
behaves on the slot pool exactly as if the message had been an async `Task`,
and the slot is released only by the completion step of the spawned unit. -/
theorem c10_post_blocking_task_takes_slot (N W : Nat) (s s' : LoopState) (tid : Nat)
    (hreach : Reachable N W s)
    (hq : ∃ restQueue, s.queue = MessageInner.postBlockingTask tid :: restQueue)
    (hstep : step s Label.recv = some s') :
    ∃ idx restFree,
      s.free = idx :: restFree ∧ s'.free = restFree ∧
      s'.running = s.running.set idx (some tid) ∧
      s'.running[idx]? = some (some tid) ∧
      s'.events = s.events ++ [Event.spawned idx tid] ∧
      step { s with queue := MessageInner.task tid :: s.queue.tail } Label.recv =
        some s' ∧
      step s' (Label.complete idx) =
        some { s' with
               free := s'.free ++ [idx]
               running := s'.running.set idx none
               events := s'.events ++ [Event.completed idx tid] } := by
  obtain ⟨restQueue, hq⟩ := hq
  obtain ⟨⟨hlen, hnodup, hmem⟩, _⟩ := reachable_inv hreach
  cases step_spec hstep with
  | recvTask idx restFree tid2 restQueue2 hph hf hq2 =>
    rw [hq] at hq2
    simp at hq2
  | recvBlocking idx restFree tid2 restQueue2 hph hf hq2 =>
    rw [hq] at hq2
    simp at hq2
  | recvInclude idx restFree path tid2 restQueue2 hph hf hq2 =>
    rw [hq] at hq2
    simp at hq2
  | recvErrorColor idx restFree enable tid2 restQueue2 hph hf hq2 =>
    rw [hq] at hq2
    simp at hq2
  | recvPostBlocking idx restFree tid2 restQueue2 hph hf hq2 =>
    rw [hq] at hq2
    simp only [List.cons.injEq, MessageInner.postBlockingTask.injEq] at hq2
    obtain ⟨ht, hr⟩ := hq2
    subst ht
    subst hr
    have hmem0 : idx ∈ s.free := hf ▸ List.mem_cons_self idx restFree
    have hidx : s.running[idx]? = some none := (hmem idx).mp hmem0
    have hlt : idx < s.running.length := (List.getElem?_eq_some.mp hidx).1
    refine ⟨idx, restFree, hf, rfl, rfl, List.getElem?_set_self hlt, rfl, ?_, ?_⟩
    · simp only [step]
      rw [if_pos hph, hq, hf]
      rfl
    · simp only [step, List.getElem?_set_self hlt]

/-- Witness for C10: the post-blocking sample step from `demoPB1` to
`demoPB2`. -/
theorem c10_post_blocking_task_takes_slot_witness :
    ∃ idx restFree,
      demoPB1.free = idx :: restFree ∧ demoPB2.free = restFree ∧
      demoPB2.running = demoPB1.running.set idx (some 5) ∧
      demoPB2.running[idx]? = some (some 5) ∧
      demoPB2.events = demoPB1.events ++ [Event.spawned idx 5] ∧
      step { demoPB1 with queue := MessageInner.task 5 :: demoPB1.queue.tail }
          Label.recv = some demoPB2 ∧
      step demoPB2 (Label.complete idx) =
        some { demoPB2 with
               free := demoPB2.free ++ [idx]
               running := demoPB2.running.set idx none
               events := demoPB2.events ++ [Event.completed idx 5] } :=
  c10_post_blocking_task_takes_slot 1 0 demoPB1 demoPB2 5 demoPB1_reachable
    ⟨[], rfl⟩ (by decide)

/-- C4: Persistent-handle call semantics.  `call` (the suspending variant)
fails only when the actor channel is closed, and then with
`RuntimeError::ChannelClosed`; on an open channel it enqueues the message.
`try_call` fails immediately with `ChannelClosed` on a closed channel, with
`ChannelFull` on an open-but-full channel, and otherwise enqueues.  Every
failure is returned explicitly as the function result. -/
theorem c4_persistent_handle_call_semantics
    (st : ChannelState PersistentMessage) (input sender : Nat) :
    (∀ e, PersistentHandle.call st input sender = Except.error e →
      e = RuntimeError.channelClosed ∧ st.closed = true) ∧
    (st.closed = false →
      PersistentHandle.call st input sender =
        Except.ok { st with
          buffer := st.buffer ++ [{ input := input, sender := sender }] }) ∧
    (st.closed = true →
      PersistentHandle.try_call st input sender =
        Except.error RuntimeError.channelClosed) ∧
    (st.closed = false → st.capacity ≤ st.buffer.length →
      PersistentHandle.try_call st input sender =
        Except.error RuntimeError.channelFull) ∧
    (st.closed = false → st.buffer.length < st.capacity →
      PersistentHandle.try_call st input sender =
        Except.ok { st with
          buffer := st.buffer ++ [{ input := input, sender := sender }] }) := by
  refine ⟨?_, ?_, ?_, ?_, ?_⟩
  · intro e hcall
    cases hcl : st.closed with
    | false => simp [PersistentHandle.call, sendSpec, hcl] at hcall
    | true =>
      simp [PersistentHandle.call, sendSpec, hcl] at hcall
      exact ⟨hcall.symm, rfl⟩
  · intro hcl
    simp [PersistentHandle.call, sendSpec, hcl]
  · intro hcl
    simp [PersistentHandle.try_call, trySendSpec, hcl]
  · intro hcl hfull
    simp [PersistentHandle.try_call, trySendSpec, hcl, hfull]
  · intro hcl hroom
    simp [PersistentHandle.try_call, trySendSpec, hcl, Nat.not_le.mpr hroom]

/-- Witness for C4 on a concrete open channel with room. -/
theorem c4_persistent_handle_call_semantics_witness :
    PersistentHandle.call { buffer := [], capacity := 1, closed := false } 4 9 =
      Except.ok { buffer := [{ input := 4, sender := 9 }], capacity := 1,
                  closed := false } :=
  (c4_persistent_handle_call_semantics
    { buffer := [], capacity := 1, closed := false } 4 9).2.1 rfl

/-- C5: Each queue-management resize operation either yields a suspension
whose completion leaves the targeted sub-queue(s) with the requested
capacity, or yields `None` exactly when there is no worker sub-queue, i.e.
when no resize is needed; the main-queue resize always completes. -/
theorem c5_resize_suspension_or_none (q : QueueState) (capacity : Nat) :
    (AsyncJulia.resize_main_queue q capacity).mainCapacity = capacity ∧
    (∀ q', AsyncJulia.resize_worker_queue q capacity = some q' →
      q'.workerCapacity = some capacity ∧ q'.mainCapacity = q.mainCapacity) ∧
    (AsyncJulia.resize_worker_queue q capacity = none ↔ q.workerCapacity = none) ∧
    (∀ q', AsyncJulia.resize_queue q capacity = some q' →
      q'.mainCapacity = capacity ∧ q'.workerCapacity = some capacity) ∧
    (AsyncJulia.resize_queue q capacity = none ↔ q.workerCapacity = none) := by
  refine ⟨rfl, ?_, ?_, ?_, ?_⟩
  · intro q' hq'
    cases hw : q.workerCapacity with
    | none =>
      simp [AsyncJulia.resize_worker_queue, Sender.resize_worker_queue, hw] at hq'
    | some c =>
      simp [AsyncJulia.resize_worker_queue, Sender.resize_worker_queue, hw] at hq'
      rw [← hq']
      exact ⟨rfl, rfl⟩
  · cases hw : q.workerCapacity with
    | none => simp [AsyncJulia.resize_worker_queue, Sender.resize_worker_queue, hw]
    | some c => simp [AsyncJulia.resize_worker_queue, Sender.resize_worker_queue, hw]
  · intro q' hq'
    cases hw : q.workerCapacity with
    | none => simp [AsyncJulia.resize_queue, Sender.resize_queue, hw] at hq'
    | some c =>
      simp [AsyncJulia.resize_queue, Sender.resize_queue, hw] at hq'
      rw [← hq']
      exact ⟨rfl, rfl⟩
  · cases hw : q.workerCapacity with
    | none => simp [AsyncJulia.resize_queue, Sender.resize_queue, hw]
    | some c => simp [AsyncJulia.resize_queue, Sender.resize_queue, hw]

/-- Witness for C5 on a queue with a worker sub-queue. -/
theorem c5_resize_suspension_or_none_witness :
    (AsyncJulia.resize_main_queue
      { mainCapacity := 16, workerCapacity := some 16 } 32).mainCapacity = 32 :=
  (c5_resize_suspension_or_none
    { mainCapacity := 16, workerCapacity := some 16 } 32).1

/-- C6: `include` surfaces a not-found error before enqueueing: when the path
does not exist it returns `IOError::NotFound` for that path and no dispatch
(hence no message) is produced; when the path exists it returns a dispatch
carrying a main-thread include message. -/
theorem c6_include_surfaces_not_found_first
    (pathExists : Bool) (path : String) (tid : Nat) :
    (pathExists = false →
      include_file pathExists path tid = Except.error (IOError.notFound path) ∧
      ∀ d, include_file pathExists path tid ≠ Except.ok d) ∧
    (pathExists = true →
      include_file pathExists path tid =
        Except.ok { affinity := Affinity.dispatchMain
                    msg := MessageInner.includeTask path tid }) := by
  constructor
  · intro h
    subst h
    refine ⟨rfl, ?_⟩
    intro d hd
    simp [include_file] at hd
  · intro h
    subst h
    rfl

/-- Witness for C6: a missing path produces the not-found error. -/
theorem c6_include_surfaces_not_found_first_witness :
    include_file false ("missing.jl") 2 =
      Except.error (IOError.notFound ("missing.jl")) :=
  ((c6_include_surfaces_not_found_first false "missing.jl" 2).1 rfl).1

/-- C7: Affinity routing of the submission API: file includes and error-color
requests are dispatched `DispatchMain`; generic blocking tasks submitted
without an explicit affinity (both the immediate and the post-blocking
variant) are dispatched `DispatchAny`. -/
theorem c7_affinity_routing :
    (∀ tid, (blocking_task tid).affinity = Affinity.dispatchAny) ∧
    (∀ tid, (post_blocking_task tid).affinity = Affinity.dispatchAny) ∧
    (∀ enable tid, (error_color enable tid).affinity = Affinity.dispatchMain) ∧
    (∀ pathExists path tid d, include_file pathExists path tid = Except.ok d →
      d.affinity = Affinity.dispatchMain) := by
  refine ⟨fun _ => rfl, fun _ => rfl, fun _ _ => rfl, ?_⟩
  intro pathExists path tid d hd
  simp only [include_file] at hd
  split at hd
  · cases hd
  · cases hd
    rfl

/-- Witness for C7: a successful include dispatch routes to the main
thread. -/
theorem c7_affinity_routing_witness :
    (blocking_task 1).affinity = Affinity.dispatchAny ∧
    ({ affinity := Affinity.dispatchMain
       msg := MessageInner.includeTask ("script.jl") 6 } : Dispatch).affinity =
      Affinity.dispatchMain :=
  ⟨c7_affinity_routing.1 1,
    c7_affinity_routing.2.2.2 true ("script.jl") 6 _ rfl⟩

end JlrsAsync
